import Mathlib

/-
  Verification of the Gurobi transcript extractor (`extract_to_csv.py`).

  The scanner `parse_out_file_stream` reads one solver transcript line by
  line and fills an extraction record using a fixed set of compiled regular
  expressions.  Below, each regular expression is embedded as an executable
  matcher over `List Char`, and the scanner's per-line state update is
  embedded as a fold over the list of lines.  Lines are modelled without
  their trailing newline; all the patterns and string operations involved
  are insensitive to that trailing character.  Character classes are
  modelled over ASCII, which covers the solver transcripts the script
  consumes.
-/

namespace GurobiExtract

/-- ASCII whitespace, the characters matched by the regex class \s and
stripped by Python str.strip on this input alphabet. -/
def isSpaceC (c : Char) : Bool :=
  c = ' ' || c = '\t' || c = '\n' || c = '\r' || c = '\x0b' || c = '\x0c'

/-- Word characters for the regex word boundary \b: letters, digits, underscore. -/
def isWordC (c : Char) : Bool := c.isAlphanum || c = '_'

/-- Case-insensitive character comparison, for the patterns compiled with
the IGNORECASE flag. -/
def ciEq (a b : Char) : Bool := a.toLower = b.toLower

/-- Consume the literal `p` case-sensitively; return the remaining input. -/
def lit : List Char → List Char → Option (List Char)
  | [], s => some s
  | _ :: _, [] => none
  | p :: ps, c :: cs => if p = c then lit ps cs else none

/-- Consume the literal `p` case-insensitively; return the remaining input. -/
def litCI : List Char → List Char → Option (List Char)
  | [], s => some s
  | _ :: _, [] => none
  | p :: ps, c :: cs => if ciEq p c then litCI ps cs else none

/-- Consume one specific character. -/
def chr (c : Char) : List Char → Option (List Char)
  | [] => none
  | d :: r => if d = c then some r else none

/-- Consume a maximal nonempty whitespace run (regex \s+).  Maximal munch is
exact here: every use site is followed by a non-whitespace token. -/
def ws1 : List Char → Option (List Char)
  | [] => none
  | c :: r => if isSpaceC c then some (r.dropWhile isSpaceC) else none

/-- Consume a maximal possibly-empty whitespace run (regex \s*). -/
def ws0 (s : List Char) : List Char := s.dropWhile isSpaceC

/-- Consume a maximal nonempty digit run (regex \d+), returning the digits.
Maximal munch is exact: every use site is followed by a non-digit token. -/
def digits1 (s : List Char) : Option (List Char × List Char) :=
  let t := s.takeWhile Char.isDigit
  if t = [] then none else some (t, s.dropWhile Char.isDigit)

/-- The optional fractional part (?:\.\d+)? of a number: consumed only when a
dot with at least one following digit is present, otherwise nothing is
consumed (the single backtracking level of the optional group). -/
def fracOpt (s : List Char) : List Char × List Char :=
  match s with
  | '.' :: r =>
    match digits1 r with
    | some (d, r2) => ('.' :: d, r2)
    | none => ([], s)
  | _ => ([], s)

/-- The optional exponent part (?:[eE][+-]?\d+)? of a number: consumed only
when the whole group matches, otherwise nothing is consumed. -/
def expOpt (s : List Char) : List Char × List Char :=
  match s with
  | c :: r =>
    if c = 'e' || c = 'E' then
      match r with
      | d :: r2 =>
        if d = '+' || d = '-' then
          match digits1 r2 with
          | some (ds, r3) => (c :: d :: ds, r3)
          | none => ([], s)
        else
          match digits1 r with
          | some (ds, r3) => (c :: ds, r3)
          | none => ([], s)
      | [] => ([], s)
    else ([], s)
  | [] => ([], s)

/-- A signed number [+-]?\d+(?:\.\d+)?(?:[eE][+-]?\d+)? as it appears in
RE_BEST_LINE; returns the matched text and the rest of the input. -/
def numTok (s : List Char) : Option (List Char × List Char) :=
  let sg : List Char × List Char :=
    match s with
    | c :: r => if c = '+' || c = '-' then ([c], r) else ([], s)
    | [] => ([], s)
  match digits1 sg.2 with
  | none => none
  | some (ds, s2) =>
    let fr := fracOpt s2
    let ex := expOpt fr.2
    some (sg.1 ++ ds ++ fr.1 ++ ex.1, ex.2)

/-- Split off the maximal run of digit-or-dot characters. -/
def numRun (s : List Char) : List Char × List Char :=
  (s.takeWhile (fun c => c.isDigit || c = '.'), s.dropWhile (fun c => c.isDigit || c = '.'))

/-- Whether a digit-or-dot run is in the language of [0-9]*\.?[0-9]+: nonempty,
at most one dot, ending in a digit. -/
def floatShape (t : List Char) : Bool :=
  decide (t.count '.' ≤ 1) &&
    (match t.getLast? with
     | some c => c.isDigit
     | none => false)

/-- An unsigned decimal [0-9]*\.?[0-9]+ as in RE_BEST_LINE's gap group and
RE_EXPLORED's float groups.  At its use sites the pattern is followed by '%'
or by whitespace, so a match must consume the entire digit-or-dot run, which
makes this run-based matcher equivalent to the backtracking regex. -/
def floatTok (s : List Char) : Option (List Char × List Char) :=
  let tr := numRun s
  if floatShape tr.1 then some (tr.1, tr.2) else none

/-- Try an anchored matcher at every suffix, leftmost start first: the
semantics of re.search for these patterns. -/
def searchWith {α : Type} (f : List Char → Option α) : List Char → Option α
  | [] => f []
  | c :: rest =>
    match f (c :: rest) with
    | some a => some a
    | none => searchWith f rest

/-- The literal phrase `p` anchored here, requiring a word boundary after it
(the phrase itself ends in a word character). -/
def phraseAt (p : List Char) (s : List Char) : Bool :=
  match lit p s with
  | some r =>
    match r with
    | [] => true
    | c :: _ => !isWordC c
  | none => false

/-- Search for \b`p`\b: `prevOk` records whether the previous character (if
any) allows a word boundary before the phrase. -/
def wbSearchGo (p : List Char) (prevOk : Bool) : List Char → Bool
  | [] => false
  | c :: rest => (prevOk && phraseAt p (c :: rest)) || wbSearchGo p (!isWordC c) rest

/-- RE_TIME_LIMIT.search: the regex \bTime limit reached\b (case-sensitive). -/
def searchTL (s : List Char) : Bool := wbSearchGo "Time limit reached".data true s

/-- RE_OPTIMAL.search: the regex \bOptimal solution found\b (case-sensitive). -/
def searchOptimal (s : List Char) : Bool := wbSearchGo "Optimal solution found".data true s

/-- RE_BEST_LINE anchored at the current position, yielding groups 1 and 3
(objective text and gap text): the pattern
Best objective\s+NUM,\s*best bound\s+NUM,\s*gap\s+FLOAT% with IGNORECASE. -/
def bestLineAt (s : List Char) : Option (List Char × List Char) :=
  match litCI "Best objective".data s with
  | none => none
  | some s =>
  match ws1 s with
  | none => none
  | some s =>
  match numTok s with
  | none => none
  | some (obj, s) =>
  match chr ',' s with
  | none => none
  | some s =>
  match litCI "best bound".data (ws0 s) with
  | none => none
  | some s =>
  match ws1 s with
  | none => none
  | some s =>
  match numTok s with
  | none => none
  | some (_, s) =>
  match chr ',' s with
  | none => none
  | some s =>
  match litCI "gap".data (ws0 s) with
  | none => none
  | some s =>
  match ws1 s with
  | none => none
  | some s =>
  match floatTok s with
  | none => none
  | some (gp, s) =>
  match chr '%' s with
  | none => none
  | some _ => some (obj, gp)

/-- RE_BEST_LINE.search on one line: objective group and gap group of the
leftmost match, as strings. -/
def searchBest (s : List Char) : Option (String × String) :=
  match searchWith bestLineAt s with
  | some (o, g) => some (⟨o⟩, ⟨g⟩)
  | none => none

/-- The optional plural s of nodes? under IGNORECASE: consumed when present.
When later parts fail, the skipped-group alternative leaves an 's' where the
pattern expects \s*\( so it fails as well, as in the backtracking regex. -/
def pluralOpt (s : List Char) : List Char :=
  match s with
  | c :: r => if c = 's' || c = 'S' then r else c :: r
  | [] => []

/-- RE_EXPLORED anchored at the current position, yielding groups 1-4
(nodes, simplex iterations, runtime seconds, work units): the pattern
Explored\s+(\d+)\s+nodes?\s*\(\s*(\d+)\s+simplex iterations\s*\)\s+in\s+
FLOAT\s+seconds\s*\(\s*FLOAT\s+work units\s*\) with IGNORECASE. -/
def exploredAt (s : List Char) : Option (List Char × List Char × List Char × List Char) :=
  match litCI "Explored".data s with
  | none => none
  | some s =>
  match ws1 s with
  | none => none
  | some s =>
  match digits1 s with
  | none => none
  | some (n, s) =>
  match ws1 s with
  | none => none
  | some s =>
  match litCI "node".data s with
  | none => none
  | some s =>
  match chr '(' (ws0 (pluralOpt s)) with
  | none => none
  | some s =>
  match digits1 (ws0 s) with
  | none => none
  | some (si, s) =>
  match ws1 s with
  | none => none
  | some s =>
  match litCI "simplex iterations".data s with
  | none => none
  | some s =>
  match chr ')' (ws0 s) with
  | none => none
  | some s =>
  match ws1 s with
  | none => none
  | some s =>
  match litCI "in".data s with
  | none => none
  | some s =>
  match ws1 s with
  | none => none
  | some s =>
  match floatTok s with
  | none => none
  | some (rt, s) =>
  match ws1 s with
  | none => none
  | some s =>
  match litCI "seconds".data s with
  | none => none
  | some s =>
  match chr '(' (ws0 s) with
  | none => none
  | some s =>
  match floatTok (ws0 s) with
  | none => none
  | some (wu, s) =>
  match ws1 s with
  | none => none
  | some s =>
  match litCI "work units".data s with
  | none => none
  | some s =>
  match chr ')' (ws0 s) with
  | none => none
  | some _ => some (n, si, rt, wu)

/-- RE_EXPLORED.search on one line: the four groups of the leftmost match. -/
def searchExplored (s : List Char) : Option (String × String × String × String) :=
  match searchWith exploredAt s with
  | some (n, si, rt, wu) => some (⟨n⟩, ⟨si⟩, ⟨rt⟩, ⟨wu⟩)
  | none => none

/-- First fixed fragment of RE_TABLE_HEADER: Expl\s+Unexpl. -/
def hdrP1 (s : List Char) : Option (List Char) :=
  match litCI "Expl".data s with
  | none => none
  | some s =>
  match ws1 s with
  | none => none
  | some s => litCI "Unexpl".data s

/-- Second fixed fragment of RE_TABLE_HEADER: Incumbent\s+BestBd\s+Gap. -/
def hdrP2 (s : List Char) : Option (List Char) :=
  match litCI "Incumbent".data s with
  | none => none
  | some s =>
  match ws1 s with
  | none => none
  | some s =>
  match litCI "BestBd".data s with
  | none => none
  | some s =>
  match ws1 s with
  | none => none
  | some s => litCI "Gap".data s

/-- Third fixed fragment of RE_TABLE_HEADER: It/Node\s+Time. -/
def hdrP3 (s : List Char) : Option (List Char) :=
  match litCI "It/Node".data s with
  | none => none
  | some s =>
  match ws1 s with
  | none => none
  | some s => litCI "Time".data s

/-- RE_TABLE_HEADER.search: the three fixed fragments joined by .* match the
line in order (the greedy gaps of the original regex only require an ordered
decomposition to exist). -/
def headerSearch (s : List Char) : Bool :=
  match searchWith hdrP1 s with
  | none => false
  | some r1 =>
    match searchWith hdrP2 r1 with
    | none => false
    | some r2 => (searchWith hdrP3 r2).isSome

/-- Python str.strip: remove leading and trailing whitespace. -/
def strip (s : List Char) : List Char :=
  ((s.dropWhile isSpaceC).reverse.dropWhile isSpaceC).reverse

/-- Separator-line test of the scanner: after removing every '|', '-' and '='
the (already stripped) line reduces to whitespace only. -/
def isSepLine (s : List Char) : Bool :=
  (s.filter (fun c => !(c = '|' || c = '-' || c = '='))).all isSpaceC

/-- Tail of RE_PROGRESS_ROW_START after the optional H group:
\d+\s+\d+\s+ anchored. -/
def rowRest (s : List Char) : Bool :=
  match digits1 s with
  | none => false
  | some (_, r) =>
    match ws1 r with
    | none => false
    | some r2 =>
      match digits1 r2 with
      | none => false
      | some (_, r3) => (ws1 r3).isSome

/-- RE_PROGRESS_ROW_START.match: ^(H\s+)?\d+\s+\d+\s+ (case-sensitive).  When
the line starts with 'H' but no whitespace follows, or the tail fails, the
skipped-group alternative starts at 'H', which is not a digit, so it fails
too, exactly as in the backtracking regex. -/
def rowStartMatch (s : List Char) : Bool :=
  match s with
  | 'H' :: r =>
    match ws1 r with
    | some r2 => rowRest r2
    | none => false
  | _ => rowRest s

/-- RE_PERCENT.findall worker, fuelled by the input length (each step consumes
at least one character).  At each position a match must consume the whole
digit-or-dot run and be followed immediately by '%', which reproduces the
backtracking regex [0-9]*\.?[0-9]+% ; on failure the start position advances
by one, on success it advances past the match (non-overlapping matches). -/
def percentGo : Nat → List Char → List (List Char)
  | 0, _ => []
  | _ + 1, [] => []
  | fuel + 1, c :: rest =>
    let tr := numRun (c :: rest)
    if floatShape tr.1 then
      match tr.2 with
      | '%' :: r2 => (tr.1 ++ ['%']) :: percentGo fuel r2
      | _ => percentGo fuel rest
    else percentGo fuel rest

/-- RE_PERCENT.findall on one line: every percent-shaped token, left to right. -/
def percentTokens (s : List Char) : List (List Char) := percentGo s.length s

/-- The scanner's initial-gap extraction from the captured data row:
percents[-1] if percents else "". -/
def lastPercentStr (s : List Char) : String :=
  match (percentTokens s).getLast? with
  | some t => ⟨t⟩
  | none => ""

/-- The record returned by parse_out_file_stream: the dict keys of the
return statement, in order. -/
structure ExtractionRecord where
  filename : String
  status : String
  objective : String
  gap : String
  work_units : String
  runtime_seconds : String
  initial_gap : String
  simplex_iters : String
  nodes : String
deriving DecidableEq, Repr

/-- The four fields filled from RE_EXPLORED, in group order:
(nodes, simplex_iters, runtime, work_units). -/
abbrev Quad := String × String × String × String

/-- The state of the initial-gap sub-automaton:
(initial_gap, saw_table_header, captured_initial_gap). -/
abbrev IGState := String × Bool × Bool

/-- Per-line scanner state: the local variables of parse_out_file_stream.
`best` is the pair (gap, best_obj) written together by the best-objective
block; `expl` the four explored-summary fields; `ig` the initial-gap
sub-automaton state.  The four blocks of the loop body read and write
disjoint parts of this state. -/
structure ScanState where
  status : String
  best : String × String
  expl : Quad
  ig : IGState
deriving DecidableEq, Repr

/-- Status block of the loop body: time limit takes precedence and is
absorbing; the optimal phrase only fills a still-empty status. -/
def stepStatus (cur : String) (ln : String) : String :=
  if cur = "Time limit reached" then cur
  else if searchTL ln.data then "Time limit reached"
  else if cur = "" then
    (if searchOptimal ln.data then "Optimal solution found" else cur)
  else cur

/-- Best-objective block of the loop body: on a match, gap is rebuilt from
group 3, and best_obj is group 1 only when group 3 is textually 0.0000,
otherwise best_obj is cleared. -/
def stepBest (cur : String × String) (ln : String) : String × String :=
  match searchBest ln.data with
  | some (obj, gp) => (gp ++ "%", if gp = "0.0000" then obj else "")
  | none => cur

/-- Explored-summary block of the loop body: on a match all four fields are
overwritten from the four groups of the single match. -/
def stepExpl (cur : Quad) (ln : String) : Quad :=
  match searchExplored ln.data with
  | some q => q
  | none => cur

/-- Initial-gap block of the loop body: a three-phase forward-only
sub-automaton.  Before the header, lines only test RE_TABLE_HEADER; after it,
blank, separator and non-progress-row lines are skipped, and the first
progress row yields the last percent token (or the empty string) exactly
once. -/
def stepIG (cur : IGState) (ln : String) : IGState :=
  match cur with
  | (ig, saw, captured) =>
    if captured then (ig, saw, captured)
    else if !saw then
      (if headerSearch ln.data then (ig, true, false) else (ig, false, false))
    else
      let s := strip ln.data
      if s = [] then (ig, true, false)
      else if isSepLine s then (ig, true, false)
      else if !rowStartMatch s then (ig, true, false)
      else (lastPercentStr s, true, true)

/-- One iteration of the scanner loop: the four independent blocks applied to
their parts of the state. -/
def step (st : ScanState) (ln : String) : ScanState :=
  { status := stepStatus st.status ln
    best := stepBest st.best ln
    expl := stepExpl st.expl ln
    ig := stepIG st.ig ln }

/-- The scanner's initial state: every field empty, both flags false. -/
def initState : ScanState :=
  { status := "", best := ("", ""), expl := ("", "", "", ""), ig := ("", false, false) }

/-- parse_out_file_stream: fold the loop body over the transcript's lines and
assemble the returned record (filename comes from the path). -/
def parse_out_file_stream (filename : String) (lines : List String) : ExtractionRecord :=
  let st := lines.foldl step initState
  { filename := filename
    status := st.status
    objective := st.best.2
    gap := st.best.1
    work_units := st.expl.2.2.2
    runtime_seconds := st.expl.2.2.1
    initial_gap := st.ig.1
    simplex_iters := st.expl.2.1
    nodes := st.expl.1 }

/-- Groups 1 and 3 of the last line of the transcript matched by
RE_BEST_LINE, if any. -/
def lastBestLine (lines : List String) : Option (String × String) :=
  (lines.filterMap (fun ln => searchBest ln.data)).getLast?

/-- The four groups of the last line of the transcript matched by
RE_EXPLORED, if any. -/
def lastExplored (lines : List String) : Option Quad :=
  (lines.filterMap (fun ln => searchExplored ln.data)).getLast?

/-- The lines strictly after the first line matched by RE_TABLE_HEADER,
or none when no line matches. -/
def afterHeader : List String → Option (List String)
  | [] => none
  | l :: rest => if headerSearch l.data then some rest else afterHeader rest

/-- The first line that is non-blank, not a separator, and matches
RE_PROGRESS_ROW_START, in stripped form. -/
def firstRow : List String → Option (List Char)
  | [] => none
  | l :: rest =>
    let s := strip l.data
    if s = [] then firstRow rest
    else if isSepLine s then firstRow rest
    else if !rowStartMatch s then firstRow rest
    else some s

/-- The initial gap the scanner extracts, described directly on the line
list: the last percent token of the first genuine data row after the first
progress-table header line. -/
def headerFirstRowGap (lines : List String) : String :=
  match afterHeader lines with
  | none => ""
  | some rest =>
    match firstRow rest with
    | none => ""
    | some s => lastPercentStr s

/-- Percentage tokens as the claim words them, a second definition for
comparison with the source's RE_PERCENT: only tokens of the literal shape
digits '.' digits '%' are collected. -/
def claimPercentGo : Nat → List Char → List (List Char)
  | 0, _ => []
  | _ + 1, [] => []
  | fuel + 1, c :: rest =>
    match digits1 (c :: rest) with
    | some (d1, r1) =>
      (match r1 with
       | '.' :: r2 =>
         (match digits1 r2 with
          | some (d2, r3) =>
            (match r3 with
             | '%' :: r4 => (d1 ++ '.' :: d2 ++ ['%']) :: claimPercentGo fuel r4
             | _ => claimPercentGo fuel rest)
          | none => claimPercentGo fuel rest)
       | _ => claimPercentGo fuel rest)
    | none => claimPercentGo fuel rest

/-- All claim-shaped percentage tokens of a line. -/
def claimPercentTokens (s : List Char) : List (List Char) := claimPercentGo s.length s

/-- The initial gap as the claim describes it: the last token of shape
digits '.' digits '%' on the first genuine data row after the header, a
second definition for comparison with the source's extraction. -/
def claimInitialGap (lines : List String) : String :=
  match afterHeader lines with
  | none => ""
  | some rest =>
    match firstRow rest with
    | none => ""
    | some s =>
      match (claimPercentTokens s).getLast? with
      | some t => ⟨t⟩
      | none => ""

/-- One directory entry seen by iter_out_files: its name, whether it is a
regular file, and (for the model) the lines of its content. -/
structure DirEntry where
  name : String
  isFile : Bool
  lines : List String
deriving DecidableEq, Repr

/-- The suffix filter of iter_out_files: entry.name.endswith(".out"). -/
def hasOutSuffix (s : String) : Bool := ".out".data.isSuffixOf s.data

/-- iter_out_files on a directory: the entries that are regular files with
the .out suffix, in the directory's enumeration order (os.scandir order; the
code applies no sorting). -/
def iter_out_files (entries : List DirEntry) : List DirEntry :=
  entries.filter (fun e => e.isFile && hasOutSuffix e.name)

/-- The rows main writes for a directory input, in order: one parsed record
per file yielded by iter_out_files. -/
def mainRows (entries : List DirEntry) : List ExtractionRecord :=
  (iter_out_files entries).map (fun e => parse_out_file_stream e.name e.lines)

/-- Lexicographic codepoint order on names, a second definition following
the claim's words (Python sorted on filenames), for comparison with the
source's enumeration order. -/
def lexLe : List Char → List Char → Bool
  | [], _ => true
  | _ :: _, [] => false
  | a :: as, b :: bs => if a = b then lexLe as bs else decide (a.toNat < b.toNat)

/-- Insertion step of the claimed filename sort. -/
def insertByName (e : DirEntry) : List DirEntry → List DirEntry
  | [] => [e]
  | x :: xs => if lexLe e.name.data x.name.data then e :: x :: xs else x :: insertByName e xs

/-- Filename insertion sort, a second definition following the claim's words. -/
def sortByName : List DirEntry → List DirEntry
  | [] => []
  | x :: xs => insertByName x (sortByName xs)

/-- The rows the claim says main writes: the eligible files processed in
filename sort order. -/
def claimSortedRows (entries : List DirEntry) : List ExtractionRecord :=
  (sortByName (iter_out_files entries)).map (fun e => parse_out_file_stream e.name e.lines)

/-- The input path of main: an existing file, an existing directory with its
entries, or a missing path.  The path string is kept for error messages. -/
inductive InPath where
  | file (e : DirEntry)
  | dir (pathName : String) (entries : List DirEntry)
  | missing (pathName : String)

/-- iter_out_files over an input path: a single file is yielded as is, a
directory is filtered, a missing path aborts (SystemExit is modelled as
Except.error; the abort happens before any output file is created). -/
def iterOutFilesP : InPath → Except String (List DirEntry)
  | .file e => .ok [e]
  | .dir _ es => .ok (iter_out_files es)
  | .missing p => .error ("Error: in_path not found: " ++ p)

/-- main after argument parsing: collect the files, abort when none were
found (this check precedes the creation and opening of the output file, so
an error means no output table is written, not even a header row), otherwise
emit one record per file in order. -/
def mainModel (inp : InPath) : Except String (List ExtractionRecord) :=
  match iterOutFilesP inp with
  | .error m => .error m
  | .ok files =>
    if files = [] then
      .error ("Error: no .out files found in: " ++
        (match inp with
         | .file e => e.name
         | .dir p _ => p
         | .missing p => p))
    else .ok (files.map (fun e => parse_out_file_stream e.name e.lines))

/-- A batch of transcripts (filename and lines), processed one scan each, as
the driver's write loop does. -/
def processTranscripts (ts : List (String × List String)) : List ExtractionRecord :=
  ts.map (fun t => parse_out_file_stream t.1 t.2)

/-- The eight scanner-filled fields of the record (filename is assigned by
the driver from the path, not extracted by the scanner). -/
inductive Field where
  | status | objective | gap | work_units | runtime_seconds | initial_gap | simplex_iters | nodes
deriving DecidableEq, Repr

/-- Project a field out of a record. -/
def Field.get : Field → ExtractionRecord → String
  | .status, r => r.status
  | .objective, r => r.objective
  | .gap, r => r.gap
  | .work_units, r => r.work_units
  | .runtime_seconds, r => r.runtime_seconds
  | .initial_gap, r => r.initial_gap
  | .simplex_iters, r => r.simplex_iters
  | .nodes, r => r.nodes

/-- Field A's presence (non-emptiness) forces field B's presence, across all
records the scanner can produce. -/
def presForces (A B : Field) : Prop :=
  ∀ fn lines, A.get (parse_out_file_stream fn lines) ≠ "" →
    B.get (parse_out_file_stream fn lines) ≠ ""

/-- Field A's presence forces one particular value of field B, across all
records the scanner can produce. -/
def valForces (A B : Field) : Prop :=
  ∃ v : String, ∀ fn lines, A.get (parse_out_file_stream fn lines) ≠ "" →
    B.get (parse_out_file_stream fn lines) = v

/-- The claim that all fields are independently optional: no field's
presence implies the presence, or a particular value, of any other field. -/
def fieldsIndependent : Prop :=
  ∀ A B : Field, A ≠ B → ¬ presForces A B ∧ ¬ valForces A B

/-- The four explored-summary fields. -/
def Field.inQuad : Field → Bool
  | .work_units => true
  | .runtime_seconds => true
  | .simplex_iters => true
  | .nodes => true
  | _ => false

/-- A Gurobi progress-table header line. -/
def hdrLine : String :=
  " Expl Unexpl |  Obj  Depth IntInf | Incumbent    BestBd   Gap | It/Node Time"

/-- Transcript filling only the status field. -/
def tStat : List String := ["Time limit reached"]

/-- Transcript filling only the gap field (nonzero gap clears the objective). -/
def tGap : List String := ["Best objective 5, best bound 4, gap 1.0000%"]

/-- Transcript filling the objective (and, necessarily, the gap). -/
def tObj : List String := ["Best objective 150, best bound 150, gap 0.0000%"]

/-- Transcript filling only the four explored-summary fields. -/
def tExpl : List String :=
  ["Explored 1 nodes (3672 simplex iterations) in 0.44 seconds (0.84 work units)"]

/-- A second explored-summary transcript with different numbers. -/
def tExpl2 : List String :=
  ["Explored 2 nodes (5 simplex iterations) in 1.5 seconds (2.5 work units)"]

/-- Transcript filling only the initial gap. -/
def tIG : List String := [hdrLine, "1 2 50.0000%"]

/-- Transcript filling all eight fields. -/
def tAll : List String :=
  ["Time limit reached",
   "Best objective 150, best bound 150, gap 0.0000%",
   "Explored 1 nodes (3672 simplex iterations) in 0.44 seconds (0.84 work units)",
   hdrLine,
   "1 2 50.0000%"]

/-- The scanner loop acts componentwise: folding the combined step equals
folding the four blocks on their own state parts. -/
theorem foldl_step_components : ∀ (ls : List String) (st : ScanState),
    ls.foldl step st =
      { status := ls.foldl stepStatus st.status
        best := ls.foldl stepBest st.best
        expl := ls.foldl stepExpl st.expl
        ig := ls.foldl stepIG st.ig } := by
  intro ls
  induction ls with
  | nil => intro st; rfl
  | cons x xs ih =>
    intro st
    simp only [List.foldl_cons]
    rw [ih]
    rfl

/-- The status field of a parsed record is the status fold from empty. -/
theorem parse_status (fn : String) (ls : List String) :
    (parse_out_file_stream fn ls).status = ls.foldl stepStatus "" := by
  show (ls.foldl step initState).status = _
  rw [foldl_step_components]
  rfl

/-- The gap and objective fields of a parsed record are the best-line fold
from empty. -/
theorem parse_best (fn : String) (ls : List String) :
    ((parse_out_file_stream fn ls).gap, (parse_out_file_stream fn ls).objective)
      = ls.foldl stepBest ("", "") := by
  show ((ls.foldl step initState).best.1, (ls.foldl step initState).best.2) = _
  rw [foldl_step_components]
  rfl

/-- The four explored-summary fields of a parsed record are the explored
fold from empty. -/
theorem parse_expl (fn : String) (ls : List String) :
    ((parse_out_file_stream fn ls).nodes, (parse_out_file_stream fn ls).simplex_iters,
     (parse_out_file_stream fn ls).runtime_seconds, (parse_out_file_stream fn ls).work_units)
      = ls.foldl stepExpl ("", "", "", "") := by
  show ((ls.foldl step initState).expl.1, (ls.foldl step initState).expl.2.1,
        (ls.foldl step initState).expl.2.2.1, (ls.foldl step initState).expl.2.2.2) = _
  rw [foldl_step_components]
  rfl

/-- The initial-gap field of a parsed record is the first component of the
sub-automaton fold from its start state. -/
theorem parse_ig (fn : String) (ls : List String) :
    (parse_out_file_stream fn ls).initial_gap = (ls.foldl stepIG ("", false, false)).1 := by
  show (ls.foldl step initState).ig.1 = _
  rw [foldl_step_components]
  rfl

/-- A line matching the time-limit phrase drives the status to the
time-limit value from any current status. -/
theorem stepStatus_TL {cur : String} {ln : String} (h : searchTL ln.data = true) :
    stepStatus cur ln = "Time limit reached" := by
  by_cases hc : cur = "Time limit reached" <;> simp [stepStatus, h, hc]

/-- The time-limit status is absorbing: no later line changes it. -/
theorem foldl_stepStatus_TL_absorb : ∀ ls : List String,
    ls.foldl stepStatus "Time limit reached" = "Time limit reached" := by
  intro ls
  induction ls with
  | nil => rfl
  | cons x xs ih =>
    simp only [List.foldl_cons]
    have : stepStatus "Time limit reached" x = "Time limit reached" := by
      simp [stepStatus]
    rw [this, ih]

/-- If some line matches the time-limit phrase, the status fold ends at the
time-limit value, whatever the running status was. -/
theorem foldl_stepStatus_any_TL : ∀ (ls : List String) (cur : String),
    ls.any (fun ln => searchTL ln.data) = true →
    ls.foldl stepStatus cur = "Time limit reached" := by
  intro ls
  induction ls with
  | nil => intro cur h; simp at h
  | cons x xs ih =>
    intro cur h
    simp only [List.any_cons, Bool.or_eq_true] at h
    cases h with
    | inl hx =>
      simp only [List.foldl_cons, stepStatus_TL hx]
      exact foldl_stepStatus_TL_absorb xs
    | inr hxs => simp only [List.foldl_cons]; exact ih _ hxs

/-- The last element of a nonempty list exists. -/
theorem getLast?_cons_some {β : Type} : ∀ (ys : List β) (y : β), ∃ z, (y :: ys).getLast? = some z := by
  intro ys
  induction ys with
  | nil => intro y; exact ⟨y, rfl⟩
  | cons a as ih =>
    intro y
    obtain ⟨z, hz⟩ := ih a
    exact ⟨z, by rw [List.getLast?_cons_cons]; exact hz⟩

/-- Folding an overwrite-on-match step is last-match-wins: the result is
determined by the last line the recognizer accepts, or is the initial value
when no line is accepted. -/
theorem foldl_lastwins {α β : Type} (f : String → Option β) (g : β → α)
    (u : α → String → α)
    (hu : ∀ a ln, u a ln = (f ln).elim a g) :
    ∀ (ls : List String) (init : α),
      ls.foldl u init = ((ls.filterMap f).getLast?).elim init g := by
  intro ls
  induction ls with
  | nil => intro init; rfl
  | cons x xs ih =>
    intro init
    rw [List.foldl_cons, ih, hu, List.filterMap_cons]
    cases hfx : f x with
    | none => rfl
    | some b =>
      cases hl : xs.filterMap f with
      | nil => rfl
      | cons y ys =>
        obtain ⟨z, hz⟩ := getLast?_cons_some ys y
        simp [hz, List.getLast?_cons_cons]

/-- The best-objective block in overwrite-on-match form. -/
theorem stepBest_eq (cur : String × String) (ln : String) :
    stepBest cur ln
      = (searchBest ln.data).elim cur
          (fun b => (b.2 ++ "%", if b.2 = "0.0000" then b.1 else "")) := by
  unfold stepBest
  cases searchBest ln.data with
  | none => rfl
  | some b => rfl

/-- The explored block in overwrite-on-match form. -/
theorem stepExpl_eq (cur : Quad) (ln : String) :
    stepExpl cur ln = (searchExplored ln.data).elim cur (fun q => q) := by
  unfold stepExpl
  cases searchExplored ln.data with
  | none => rfl
  | some q => rfl

/-- C1: for every transcript with a line matching the time-limit phrase
(the recognizer \bTime limit reached\b), the returned record's status is the
time-limit status, regardless of whether and where lines matching the
optimal phrase appear; once set, no later line changes it. -/
theorem status_time_limit_precedence (fn : String) (ls : List String)
    (h : ls.any (fun ln => searchTL ln.data) = true) :
    (parse_out_file_stream fn ls).status = "Time limit reached" := by
  rw [parse_status]
  exact foldl_stepStatus_any_TL ls "" h

/-- Witness for C1: a transcript with optimal-status lines both before and
after the time-limit line still reports the time-limit status. -/
theorem status_time_limit_precedence_witness :
    (["Optimal solution found", "Time limit reached", "Optimal solution found"].any
        (fun ln => searchTL ln.data) = true)
    ∧ (parse_out_file_stream "a.out"
        ["Optimal solution found", "Time limit reached", "Optimal solution found"]).status
        = "Time limit reached" :=
  ⟨by decide,
   status_time_limit_precedence "a.out"
     ["Optimal solution found", "Time limit reached", "Optimal solution found"] (by decide)⟩

/-- C2: the gap field is always rebuilt from the last matching best-objective
line's gap group, and the objective field is that line's objective group
exactly when the gap group is textually 0.0000, otherwise it is cleared;
with no matching line both stay empty. -/
theorem best_line_gap_objective (fn : String) (ls : List String) :
    ((parse_out_file_stream fn ls).gap, (parse_out_file_stream fn ls).objective)
      = match lastBestLine ls with
        | some b => (b.2 ++ "%", if b.2 = "0.0000" then b.1 else "")
        | none => ("", "") := by
  rw [parse_best]
  rw [foldl_lastwins (fun ln => searchBest ln.data)
    (fun b => (b.2 ++ "%", if b.2 = "0.0000" then b.1 else "")) stepBest stepBest_eq ls ("", "")]
  simp only [lastBestLine]
  cases (ls.filterMap (fun ln => searchBest ln.data)).getLast? <;> rfl

/-- Scenario B check for C2: two best-objective lines, nonzero gap then zero
gap, yield gap 0.0000% and objective 150. -/
theorem best_line_scenario_b :
    ((parse_out_file_stream "b.out"
        ["Best objective 200, best bound 190, gap 5.0000%",
         "Best objective 150, best bound 150, gap 0.0000%"]).gap,
     (parse_out_file_stream "b.out"
        ["Best objective 200, best bound 190, gap 5.0000%",
         "Best objective 150, best bound 150, gap 0.0000%"]).objective)
      = ("0.0000%", "150") := by decide

/-- C3: the four explored-summary fields equal the four groups of the last
line matched by RE_EXPLORED, all overwritten together from that single
match; with no matching line all four stay empty.  Every prefix of a
transcript is itself a transcript, so this also characterizes the state
after any single matching line. -/
theorem explored_last_match (fn : String) (ls : List String) :
    ((parse_out_file_stream fn ls).nodes, (parse_out_file_stream fn ls).simplex_iters,
     (parse_out_file_stream fn ls).runtime_seconds, (parse_out_file_stream fn ls).work_units)
      = match lastExplored ls with
        | some q => q
        | none => ("", "", "", "") := by
  rw [parse_expl]
  rw [foldl_lastwins (fun ln => searchExplored ln.data) (fun q => q) stepExpl stepExpl_eq ls
    ("", "", "", "")]
  simp only [lastExplored]
  cases (ls.filterMap (fun ln => searchExplored ln.data)).getLast? <;> rfl

/-- Once the initial gap is captured the sub-automaton never acts again. -/
theorem foldl_stepIG_captured : ∀ (ls : List String) (ig : String) (saw : Bool),
    ls.foldl stepIG (ig, saw, true) = (ig, saw, true) := by
  intro ls
  induction ls with
  | nil => intro ig saw; rfl
  | cons l rest ih =>
    intro ig saw
    simp only [List.foldl_cons]
    have h : stepIG (ig, saw, true) l = (ig, saw, true) := rfl
    rw [h, ih]

/-- From the after-header phase, the captured initial gap is the last percent
token of the first genuine data row, or the running value when no such row
follows. -/
theorem foldl_stepIG_after : ∀ (ls : List String) (ig : String),
    (ls.foldl stepIG (ig, true, false)).1 = (firstRow ls).elim ig lastPercentStr := by
  intro ls
  induction ls with
  | nil => intro ig; rfl
  | cons l rest ih =>
    intro ig
    simp only [List.foldl_cons, firstRow]
    have hstep : stepIG (ig, true, false) l =
        (let s := strip l.data
         if s = [] then (ig, true, false)
         else if isSepLine s then (ig, true, false)
         else if !rowStartMatch s then (ig, true, false)
         else (lastPercentStr s, true, true)) := rfl
    rw [hstep]
    by_cases h1 : strip l.data = []
    · simp only [h1, if_pos rfl]
      simp only [if_pos h1] at *
      simpa using ih ig
    · by_cases h2 : isSepLine (strip l.data) = true
      · simp only [h1, h2, if_neg h1, if_pos h2, if_true, if_false]
        simpa [h1, h2] using ih ig
      · by_cases h3 : rowStartMatch (strip l.data) = true
        · simp only [h1, h2, h3, if_neg h1]
          simp only [Bool.not_eq_true] at h2
          simp [h2, h3, foldl_stepIG_captured]
        · simp only [Bool.not_eq_true] at h2 h3
          simp only [h1, h2, h3, if_neg h1]
          simpa [h1, h2, h3] using ih ig

/-- From the seeking phase, the captured initial gap is determined by the
lines after the first header line, if any. -/
theorem foldl_stepIG_seek : ∀ (ls : List String) (ig : String),
    (ls.foldl stepIG (ig, false, false)).1
      = (afterHeader ls).elim ig (fun rest => (firstRow rest).elim ig lastPercentStr) := by
  intro ls
  induction ls with
  | nil => intro ig; rfl
  | cons l rest ih =>
    intro ig
    simp only [List.foldl_cons, afterHeader]
    have hstep : stepIG (ig, false, false) l =
        (if headerSearch l.data then (ig, true, false) else (ig, false, false)) := rfl
    rw [hstep]
    by_cases h : headerSearch l.data = true
    · simp only [h, if_pos h, if_true]
      simpa using foldl_stepIG_after rest ig
    · simp only [Bool.not_eq_true] at h
      simp only [h, if_false]
      simpa using ih ig

/-- C4 (amended): the initial-gap field equals the last numeric percentage
token (digits with an optional decimal point, i.e. the shapes digits %,
digits . digits %, or . digits %) on the first line after the header that is
non-blank, non-separator and matches the progress-row shape, the empty
string when that row carries no such token or no such row exists; blank and
separator lines in between do not affect the result, and the value is
captured at most once. -/
theorem initial_gap_characterization (fn : String) (ls : List String) :
    (parse_out_file_stream fn ls).initial_gap = headerFirstRowGap ls := by
  rw [parse_ig, foldl_stepIG_seek ls ""]
  simp only [headerFirstRowGap]
  cases afterHeader ls with
  | none => rfl
  | some rest =>
    show (firstRow rest).elim "" lastPercentStr
        = (match firstRow rest with
           | none => ""
           | some s => lastPercentStr s)
    cases firstRow rest with
    | none => rfl
    | some s => rfl

/-- C4 counterexample: on the data row `1 2 50%` the scanner captures the
integer-shaped percent token 50%, but the claim's token shape
digits '.' digits '%' finds no token on that row and so predicts the empty
string; the two disagree on this concrete transcript. -/
theorem initial_gap_claim_shape_counterexample :
    (parse_out_file_stream "t.out" [hdrLine, "1 2 50%"]).initial_gap = "50%"
    ∧ claimInitialGap [hdrLine, "1 2 50%"] = ""
    ∧ (parse_out_file_stream "t.out" [hdrLine, "1 2 50%"]).initial_gap
        ≠ claimInitialGap [hdrLine, "1 2 50%"] := by
  refine ⟨by decide, by decide, ?_⟩
  decide

/-- A line matching neither status phrase leaves the running status alone. -/
theorem stepStatus_nomatch {ln : String} (h1 : searchTL ln.data = false)
    (h2 : searchOptimal ln.data = false) (cur : String) : stepStatus cur ln = cur := by
  by_cases hc : cur = "Time limit reached" <;> by_cases he : cur = "" <;>
    simp [stepStatus, h1, h2, hc, he]

/-- With no status-phrase match anywhere, the status fold is the identity. -/
theorem foldl_stepStatus_nomatch : ∀ (ls : List String),
    (∀ ln ∈ ls, searchTL ln.data = false ∧ searchOptimal ln.data = false) →
    ∀ cur, ls.foldl stepStatus cur = cur := by
  intro ls
  induction ls with
  | nil => intro _ cur; rfl
  | cons l rest ih =>
    intro h cur
    have hl := h l (by simp)
    simp only [List.foldl_cons, stepStatus_nomatch hl.1 hl.2]
    exact ih (fun x hx => h x (by simp [hx])) cur

/-- With no header match anywhere, the seeking phase never ends. -/
theorem afterHeader_none : ∀ ls : List String,
    (∀ ln ∈ ls, headerSearch ln.data = false) → afterHeader ls = none := by
  intro ls
  induction ls with
  | nil => intro _; rfl
  | cons l rest ih =>
    intro h
    have hl := h l (by simp)
    simp only [afterHeader, hl, Bool.false_eq_true, if_false]
    exact ih (fun x hx => h x (by simp [hx]))

/-- C5: the scanner always returns a finalized record (it is a total
function of the line list); every field whose recognizer never matched is
the empty string, and in particular a transcript with no progress-table
header yields an empty initial gap, with no error possible. -/
theorem fields_empty_when_unmatched (fn : String) (ls : List String) :
    ((∀ ln ∈ ls, searchTL ln.data = false ∧ searchOptimal ln.data = false) →
      (parse_out_file_stream fn ls).status = "")
    ∧ ((∀ ln ∈ ls, searchBest ln.data = none) →
      (parse_out_file_stream fn ls).gap = "" ∧ (parse_out_file_stream fn ls).objective = "")
    ∧ ((∀ ln ∈ ls, searchExplored ln.data = none) →
      (parse_out_file_stream fn ls).nodes = ""
      ∧ (parse_out_file_stream fn ls).simplex_iters = ""
      ∧ (parse_out_file_stream fn ls).runtime_seconds = ""
      ∧ (parse_out_file_stream fn ls).work_units = "")
    ∧ ((∀ ln ∈ ls, headerSearch ln.data = false) →
      (parse_out_file_stream fn ls).initial_gap = "") := by
  refine ⟨?_, ?_, ?_, ?_⟩
  · intro h
    rw [parse_status]
    exact foldl_stepStatus_nomatch ls h ""
  · intro h
    have hb := parse_best fn ls
    rw [foldl_lastwins (fun ln => searchBest ln.data)
      (fun b => (b.2 ++ "%", if b.2 = "0.0000" then b.1 else "")) stepBest stepBest_eq ls
      ("", "")] at hb
    rw [List.filterMap_eq_nil_iff.mpr h] at hb
    exact ⟨congrArg Prod.fst hb, congrArg Prod.snd hb⟩
  · intro h
    have hb := parse_expl fn ls
    rw [foldl_lastwins (fun ln => searchExplored ln.data) (fun q => q) stepExpl stepExpl_eq ls
      ("", "", "", "")] at hb
    rw [List.filterMap_eq_nil_iff.mpr h] at hb
    refine ⟨congrArg (fun p => p.1) hb, congrArg (fun p => p.2.1) hb,
      congrArg (fun p => p.2.2.1) hb, congrArg (fun p => p.2.2.2) hb⟩
  · intro h
    rw [parse_ig, foldl_stepIG_seek ls "", afterHeader_none ls h]
    rfl

/-- Witness for C5: a transcript whose single line matches no recognizer
yields the all-empty record, and in particular (Scenario C) the missing
header leaves the initial gap empty. -/
theorem fields_empty_when_unmatched_witness :
    (parse_out_file_stream "w.out" ["hello world"]).status = ""
    ∧ (parse_out_file_stream "w.out" ["hello world"]).gap = ""
    ∧ (parse_out_file_stream "w.out" ["hello world"]).objective = ""
    ∧ (parse_out_file_stream "w.out" ["hello world"]).nodes = ""
    ∧ (parse_out_file_stream "w.out" ["hello world"]).simplex_iters = ""
    ∧ (parse_out_file_stream "w.out" ["hello world"]).runtime_seconds = ""
    ∧ (parse_out_file_stream "w.out" ["hello world"]).work_units = ""
    ∧ (parse_out_file_stream "w.out" ["hello world"]).initial_gap = "" := by
  have h := fields_empty_when_unmatched "w.out" ["hello world"]
  have h1 := h.1 (by decide)
  have h2 := h.2.1 (by decide)
  have h3 := h.2.2.1 (by decide)
  have h4 := h.2.2.2 (by decide)
  exact ⟨h1, h2.1, h2.2, h3.1, h3.2.1, h3.2.2.1, h3.2.2.2, h4⟩

/-- A digit run accepted by the \d+ matcher is nonempty. -/
theorem digits1_ne_nil {s t r : List Char} (h : digits1 s = some (t, r)) : t ≠ [] := by
  unfold digits1 at h
  by_cases hc : s.takeWhile Char.isDigit = []
  · simp [hc] at h
  · simp only [hc, if_neg hc, if_false] at h
    cases h
    exact fun hn => hc (by simp_all)

/-- A token accepted by the unsigned-decimal matcher is nonempty. -/
theorem floatTok_ne_nil {s t r : List Char} (h : floatTok s = some (t, r)) : t ≠ [] := by
  unfold floatTok at h
  by_cases hc : floatShape (numRun s).1 = true
  · simp only [hc, if_pos hc, if_true] at h
    cases h
    intro hn
    rw [hn] at hc
    simp [floatShape] at hc
  · simp [hc] at h

/-- The four groups of an RE_EXPLORED match are nonempty strings. -/
theorem exploredAt_nonempty {cs n si rt wu : List Char}
    (h : exploredAt cs = some (n, si, rt, wu)) :
    n ≠ [] ∧ si ≠ [] ∧ rt ≠ [] ∧ wu ≠ [] := by
  unfold exploredAt at h
  repeat' split at h
  any_goals (exfalso; exact Option.noConfusion h)
  simp only [Option.some.injEq, Prod.mk.injEq] at h
  obtain ⟨h1, h2, h3, h4⟩ := h
  subst h1; subst h2; subst h3; subst h4
  exact ⟨digits1_ne_nil (by assumption), digits1_ne_nil (by assumption),
    floatTok_ne_nil (by assumption), floatTok_ne_nil (by assumption)⟩

/-- A successful search comes from a successful anchored match at some suffix. -/
theorem searchWith_some {α : Type} (f : List Char → Option α) :
    ∀ (s : List Char) (a : α), searchWith f s = some a → ∃ t, f t = some a := by
  intro s
  induction s with
  | nil => intro a h; exact ⟨[], h⟩
  | cons c rest ih =>
    intro a h
    unfold searchWith at h
    cases hf : f (c :: rest) with
    | some b =>
      simp only [hf] at h
      cases h
      exact ⟨c :: rest, hf⟩
    | none =>
      simp only [hf] at h
      exact ih a h

/-- The four string groups of an RE_EXPLORED search are nonempty. -/
theorem searchExplored_nonempty {cs : List Char} {q : String × String × String × String}
    (h : searchExplored cs = some q) :
    q.1 ≠ "" ∧ q.2.1 ≠ "" ∧ q.2.2.1 ≠ "" ∧ q.2.2.2 ≠ "" := by
  unfold searchExplored at h
  cases hs : searchWith exploredAt cs with
  | none => rw [hs] at h; exact Option.noConfusion h
  | some r =>
    rw [hs] at h
    obtain ⟨n, si, rt, wu⟩ := r
    obtain ⟨t, ht⟩ := searchWith_some exploredAt cs _ hs
    have hne := exploredAt_nonempty ht
    cases h
    exact ⟨fun he => hne.1 (congrArg String.data he),
      fun he => hne.2.1 (congrArg String.data he),
      fun he => hne.2.2.1 (congrArg String.data he),
      fun he => hne.2.2.2 (congrArg String.data he)⟩

/-- Whenever the scanner reports a non-empty objective, the last matching
best-objective line had gap group 0.0000, so the gap field reads 0.0000%. -/
theorem obj_gap_aux (fn : String) (ls : List String)
    (h : (parse_out_file_stream fn ls).objective ≠ "") :
    (parse_out_file_stream fn ls).gap = "0.0000%" := by
  have hb := parse_best fn ls
  rw [foldl_lastwins (fun ln => searchBest ln.data)
    (fun b => (b.2 ++ "%", if b.2 = "0.0000" then b.1 else "")) stepBest stepBest_eq ls
    ("", "")] at hb
  cases hlast : (ls.filterMap (fun ln => searchBest ln.data)).getLast? with
  | none =>
    rw [hlast] at hb
    exact absurd (congrArg Prod.snd hb) h
  | some b =>
    rw [hlast] at hb
    have hgap : (parse_out_file_stream fn ls).gap = b.2 ++ "%" := congrArg Prod.fst hb
    have hobj : (parse_out_file_stream fn ls).objective
        = (if b.2 = "0.0000" then b.1 else "") := congrArg Prod.snd hb
    by_cases hz : b.2 = "0.0000"
    · rw [hgap, hz]; decide
    · rw [hobj, if_neg hz] at h
      exact absurd rfl h

/-- The four explored-summary fields are filled together: either all four
are empty (no match) or all four are nonempty (groups of the last match). -/
theorem quad_all_or_none (fn : String) (ls : List String) :
    ((parse_out_file_stream fn ls).nodes = ""
      ∧ (parse_out_file_stream fn ls).simplex_iters = ""
      ∧ (parse_out_file_stream fn ls).runtime_seconds = ""
      ∧ (parse_out_file_stream fn ls).work_units = "")
    ∨ ((parse_out_file_stream fn ls).nodes ≠ ""
      ∧ (parse_out_file_stream fn ls).simplex_iters ≠ ""
      ∧ (parse_out_file_stream fn ls).runtime_seconds ≠ ""
      ∧ (parse_out_file_stream fn ls).work_units ≠ "") := by
  have hb := parse_expl fn ls
  rw [foldl_lastwins (fun ln => searchExplored ln.data) (fun q => q) stepExpl stepExpl_eq ls
    ("", "", "", "")] at hb
  cases hlast : (ls.filterMap (fun ln => searchExplored ln.data)).getLast? with
  | none =>
    rw [hlast] at hb
    left
    exact ⟨congrArg (fun p => p.1) hb, congrArg (fun p => p.2.1) hb,
      congrArg (fun p => p.2.2.1) hb, congrArg (fun p => p.2.2.2) hb⟩
  | some q =>
    rw [hlast] at hb
    right
    have hmem : q ∈ ls.filterMap (fun ln => searchExplored ln.data) :=
      List.mem_of_mem_getLast? (Option.mem_def.mpr hlast)
    obtain ⟨ln, hln, hq⟩ := List.mem_filterMap.mp hmem
    have hne := searchExplored_nonempty hq
    have h1 : (parse_out_file_stream fn ls).nodes = q.1 := congrArg (fun p => p.1) hb
    have h2 : (parse_out_file_stream fn ls).simplex_iters = q.2.1 :=
      congrArg (fun p => p.2.1) hb
    have h3 : (parse_out_file_stream fn ls).runtime_seconds = q.2.2.1 :=
      congrArg (fun p => p.2.2.1) hb
    have h4 : (parse_out_file_stream fn ls).work_units = q.2.2.2 :=
      congrArg (fun p => p.2.2.2) hb
    exact ⟨h1 ▸ hne.1, h2 ▸ hne.2.1, h3 ▸ hne.2.2.1, h4 ▸ hne.2.2.2⟩

/-- Within the explored-summary quadruple, presence of one field forces
presence of the others. -/
theorem quad_presForces {A B : Field} (hA : A.inQuad = true) (hB : B.inQuad = true) :
    presForces A B := by
  intro fn ls h
  rcases quad_all_or_none fn ls with he | hn
  · exfalso
    apply h
    cases A with
    | work_units => exact he.2.2.2
    | runtime_seconds => exact he.2.2.1
    | simplex_iters => exact he.2.1
    | nodes => exact he.1
    | status => exact absurd hA (by decide)
    | objective => exact absurd hA (by decide)
    | gap => exact absurd hA (by decide)
    | initial_gap => exact absurd hA (by decide)
  · cases B with
    | work_units => exact hn.2.2.2
    | runtime_seconds => exact hn.2.2.1
    | simplex_iters => exact hn.2.1
    | nodes => exact hn.1
    | status => exact absurd hB (by decide)
    | objective => exact absurd hB (by decide)
    | gap => exact absurd hB (by decide)
    | initial_gap => exact absurd hB (by decide)

/-- A present objective forces a present gap. -/
theorem obj_gap_pres : presForces Field.objective Field.gap := by
  intro fn ls h
  show (parse_out_file_stream fn ls).gap ≠ ""
  rw [obj_gap_aux fn ls h]
  decide

/-- A present objective forces the gap value 0.0000%. -/
theorem obj_gap_val : valForces Field.objective Field.gap :=
  ⟨"0.0000%", fun fn ls h => obj_gap_aux fn ls h⟩

/-- The record of the status-only transcript. -/
theorem recTStat : parse_out_file_stream "t.out" tStat =
    ⟨"t.out", "Time limit reached", "", "", "", "", "", "", ""⟩ := by decide

/-- The record of the nonzero-gap transcript. -/
theorem recTGap : parse_out_file_stream "t.out" tGap =
    ⟨"t.out", "", "", "1.0000%", "", "", "", "", ""⟩ := by decide

/-- The record of the zero-gap transcript. -/
theorem recTObj : parse_out_file_stream "t.out" tObj =
    ⟨"t.out", "", "150", "0.0000%", "", "", "", "", ""⟩ := by decide

/-- The record of the explored-summary transcript. -/
theorem recTExpl : parse_out_file_stream "t.out" tExpl =
    ⟨"t.out", "", "", "", "0.84", "0.44", "", "3672", "1"⟩ := by decide

/-- The record of the second explored-summary transcript. -/
theorem recTExpl2 : parse_out_file_stream "t.out" tExpl2 =
    ⟨"t.out", "", "", "", "2.5", "1.5", "", "5", "2"⟩ := by decide

/-- The record of the progress-table transcript. -/
theorem recTIG : parse_out_file_stream "t.out" tIG =
    ⟨"t.out", "", "", "", "", "", "50.0000%", "", ""⟩ := by decide

/-- The record of the all-fields transcript. -/
theorem recTAll : parse_out_file_stream "t.out" tAll =
    ⟨"t.out", "Time limit reached", "150", "0.0000%", "0.84", "0.44", "50.0000%", "3672", "1"⟩ := by
  decide

/-- Presence does not force presence when some record has the first field
filled and the second empty. -/
theorem not_presForces_of (A B : Field) (fn : String) (ls : List String)
    (hA : A.get (parse_out_file_stream fn ls) ≠ "")
    (hB : B.get (parse_out_file_stream fn ls) = "") : ¬ presForces A B :=
  fun h => (h fn ls hA) hB

/-- Presence does not force a value when two records have the first field
filled but different second fields. -/
theorem not_valForces_of (A B : Field) (fn1 : String) (ls1 : List String)
    (fn2 : String) (ls2 : List String)
    (hA1 : A.get (parse_out_file_stream fn1 ls1) ≠ "")
    (hA2 : A.get (parse_out_file_stream fn2 ls2) ≠ "")
    (hB : B.get (parse_out_file_stream fn1 ls1) ≠ B.get (parse_out_file_stream fn2 ls2)) :
    ¬ valForces A B := by
  rintro ⟨v, hv⟩
  exact hB ((hv fn1 ls1 hA1).trans (hv fn2 ls2 hA2).symm)

/-- C6 (amended): the scanner's eight fields are independently optional,
except that a present objective forces gap = 0.0000% (and hence a present
gap), and that the four explored-summary fields are present together or
absent together; this characterizes exactly which presence dependencies
exist between distinct fields. -/
theorem fields_independent_except (A B : Field) (hAB : A ≠ B) :
    (presForces A B ↔ (A = Field.objective ∧ B = Field.gap)
        ∨ (A.inQuad = true ∧ B.inQuad = true))
    ∧ (valForces A B ↔ (A = Field.objective ∧ B = Field.gap)) := by
  cases A <;> cases B <;>
  first
  | exact absurd rfl hAB
  | exact ⟨iff_of_true obj_gap_pres (by decide), iff_of_true obj_gap_val (by decide)⟩
  | exact ⟨iff_of_true (quad_presForces rfl rfl) (by decide),
      iff_of_false (not_valForces_of _ _ "t.out" tExpl "t.out" tExpl2
        (by rw [recTExpl]; decide) (by rw [recTExpl2]; decide)
        (by rw [recTExpl, recTExpl2]; decide)) (by decide)⟩
  | exact ⟨iff_of_false (not_presForces_of _ _ "t.out" tStat
        (by rw [recTStat]; decide) (by rw [recTStat]; decide)) (by decide),
      iff_of_false (not_valForces_of _ _ "t.out" tStat "t.out" tAll
        (by rw [recTStat]; decide) (by rw [recTAll]; decide)
        (by rw [recTStat, recTAll]; decide)) (by decide)⟩
  | exact ⟨iff_of_false (not_presForces_of _ _ "t.out" tGap
        (by rw [recTGap]; decide) (by rw [recTGap]; decide)) (by decide),
      iff_of_false (not_valForces_of _ _ "t.out" tGap "t.out" tAll
        (by rw [recTGap]; decide) (by rw [recTAll]; decide)
        (by rw [recTGap, recTAll]; decide)) (by decide)⟩
  | exact ⟨iff_of_false (not_presForces_of _ _ "t.out" tObj
        (by rw [recTObj]; decide) (by rw [recTObj]; decide)) (by decide),
      iff_of_false (not_valForces_of _ _ "t.out" tObj "t.out" tAll
        (by rw [recTObj]; decide) (by rw [recTAll]; decide)
        (by rw [recTObj, recTAll]; decide)) (by decide)⟩
  | exact ⟨iff_of_false (not_presForces_of _ _ "t.out" tExpl
        (by rw [recTExpl]; decide) (by rw [recTExpl]; decide)) (by decide),
      iff_of_false (not_valForces_of _ _ "t.out" tExpl "t.out" tAll
        (by rw [recTExpl]; decide) (by rw [recTAll]; decide)
        (by rw [recTExpl, recTAll]; decide)) (by decide)⟩
  | exact ⟨iff_of_false (not_presForces_of _ _ "t.out" tIG
        (by rw [recTIG]; decide) (by rw [recTIG]; decide)) (by decide),
      iff_of_false (not_valForces_of _ _ "t.out" tIG "t.out" tAll
        (by rw [recTIG]; decide) (by rw [recTAll]; decide)
        (by rw [recTIG, recTAll]; decide)) (by decide)⟩

/-- Witness for C6: instantiating the field-independence characterization at
the status/gap pair. -/
theorem fields_independent_except_witness :
    Field.status ≠ Field.gap
    ∧ ((presForces Field.status Field.gap
          ↔ (Field.status = Field.objective ∧ Field.gap = Field.gap)
            ∨ (Field.status.inQuad = true ∧ Field.gap.inQuad = true))
       ∧ (valForces Field.status Field.gap
          ↔ (Field.status = Field.objective ∧ Field.gap = Field.gap))) :=
  ⟨by decide, fields_independent_except Field.status Field.gap (by decide)⟩

/-- C6 counterexample: the claim that no field's presence implies the
presence or a particular value of any other field is false, because a
present objective forces the gap value 0.0000%. -/
theorem fields_independent_counterexample : ¬ fieldsIndependent :=
  fun h => (h Field.objective Field.gap (by decide)).2 obj_gap_val

/-- C10: in every record the scanner returns, a non-empty objective comes
with a gap field that is exactly the string 0.0000%. -/
theorem objective_nonempty_implies_zero_gap (fn : String) (ls : List String)
    (h : (parse_out_file_stream fn ls).objective ≠ "") :
    (parse_out_file_stream fn ls).gap = "0.0000%" :=
  obj_gap_aux fn ls h

/-- Witness for C10: the zero-gap transcript has a non-empty objective and
gap 0.0000%. -/
theorem objective_nonempty_implies_zero_gap_witness :
    (parse_out_file_stream "t.out" tObj).objective ≠ ""
    ∧ (parse_out_file_stream "t.out" tObj).gap = "0.0000%" :=
  ⟨by rw [recTObj]; decide,
   objective_nonempty_implies_zero_gap "t.out" tObj (by rw [recTObj]; decide)⟩

/-- C7 (amended): every directory entry that is a regular file with the .out
suffix is processed, and the files keep the directory's enumeration order (a
sublist of the entry list); the code applies no sorting. -/
theorem out_files_enumeration_order (entries : List DirEntry) :
    (iter_out_files entries).Sublist entries
    ∧ (∀ e : DirEntry, e ∈ iter_out_files entries ↔
        e ∈ entries ∧ e.isFile = true ∧ hasOutSuffix e.name = true)
    ∧ mainRows entries
        = (iter_out_files entries).map (fun e => parse_out_file_stream e.name e.lines) := by
  refine ⟨List.filter_sublist entries, ?_, rfl⟩
  intro e
  rw [iter_out_files, List.mem_filter]
  simp [Bool.and_eq_true, and_assoc]

/-- C7 counterexample: on a directory enumerated as b.out then a.out, the
rows come out in enumeration order b.out, a.out, not in the claimed filename
sort order a.out, b.out. -/
theorem out_files_not_sorted_counterexample :
    mainRows [⟨"b.out", true, tStat⟩, ⟨"a.out", true, []⟩]
      ≠ claimSortedRows [⟨"b.out", true, tStat⟩, ⟨"a.out", true, []⟩]
    ∧ (mainRows [⟨"b.out", true, tStat⟩, ⟨"a.out", true, []⟩]).map ExtractionRecord.filename
        = ["b.out", "a.out"]
    ∧ (claimSortedRows [⟨"b.out", true, tStat⟩, ⟨"a.out", true, []⟩]).map
        ExtractionRecord.filename
        = ["a.out", "b.out"] :=
  ⟨by decide, by decide, by decide⟩

/-- C8: a directory with zero eligible transcripts makes main abort with the
no-files error before the output file is touched (the model's error value is
produced before any output is assembled), while a directory holding one
eligible transcript succeeds even when that transcript matches nothing and
so produces an all-empty record. -/
theorem no_files_fatal_before_output (p : String) (entries : List DirEntry) (e : DirEntry) :
    (iter_out_files entries = [] →
      mainModel (InPath.dir p entries)
        = Except.error ("Error: no .out files found in: " ++ p))
    ∧ (e.isFile = true → hasOutSuffix e.name = true →
      mainModel (InPath.dir p [e]) = Except.ok [parse_out_file_stream e.name e.lines]) := by
  constructor
  · intro h
    simp [mainModel, iterOutFilesP, h]
  · intro h1 h2
    have hfe : iter_out_files [e] = [e] := by
      simp [iter_out_files, List.filter, h1, h2]
    simp [mainModel, iterOutFilesP, hfe]

/-- Witness for C8: a directory with one non-.out file aborts with the
no-files error; a directory with one .out file whose content matches nothing
yields one (all-empty) record and no error. -/
theorem no_files_fatal_before_output_witness :
    (iter_out_files [⟨"notes.txt", true, []⟩] = []
      ∧ mainModel (InPath.dir "runs" [⟨"notes.txt", true, []⟩])
          = Except.error "Error: no .out files found in: runs")
    ∧ ((⟨"g.out", true, ["hello world"]⟩ : DirEntry).isFile = true
      ∧ hasOutSuffix "g.out" = true
      ∧ mainModel (InPath.dir "runs" [(⟨"g.out", true, ["hello world"]⟩ : DirEntry)])
          = Except.ok [parse_out_file_stream "g.out" ["hello world"]]) := by
  refine ⟨⟨by decide, ?_⟩, by decide, by decide, ?_⟩
  · have h := (no_files_fatal_before_output "runs" [⟨"notes.txt", true, []⟩]
      ⟨"notes.txt", true, []⟩).1 (by decide)
    exact h
  · exact (no_files_fatal_before_output "runs" [] ⟨"g.out", true, ["hello world"]⟩).2
      (by decide) (by decide)

/-- C9: the scan of a transcript is a pure function of its line sequence: a
batch splits into independent per-transcript scans with no state carried
across invocations, and re-running the scanner on the same lines returns an
identical record. -/
theorem scan_pure_batch_split :
    (∀ ts1 ts2 : List (String × List String),
      processTranscripts (ts1 ++ ts2) = processTranscripts ts1 ++ processTranscripts ts2)
    ∧ ∀ fn ls, parse_out_file_stream fn ls = parse_out_file_stream fn ls :=
  ⟨fun ts1 ts2 => List.map_append _ ts1 ts2, fun _ _ => rfl⟩

end GurobiExtract

